import Mathlib

/-! Shallow embedding of the prompt_processor repository core: the ISTVON
Mapper (prompt_processor/services.py), the Validator and the Builder
(prompt_processor/validators.py).  Python dict/list/string/bool values are
embedded as `JValue`; the Builder, whose behaviour depends on Python
reference semantics (in-place list/dict mutation vs. rebinding), is
embedded over a small object heap further below. -/

/-- JSON-like values: the shape of the Python dicts, lists, strings and
booleans that make up ISTVON records. -/
inductive JValue where
  | str (s : String)
  | bool (b : Bool)
  | arr (xs : List JValue)
  | obj (kvs : List (String × JValue))

/-- Key lookup in an association list, mirroring Python dict access
(`d[k]` / `d.get(k)`); dict insertion order is the list order. -/
def lookupKV : List (String × JValue) → String → Option JValue
  | [], _ => none
  | (k, v) :: rest, key => if k = key then some v else lookupKV rest key

/-- Python ASCII whitespace: the characters matched by the regex class \s
and stripped by str.strip() / split by str.split(). -/
def isPySpace (c : Char) : Bool :=
  c = ' ' || c = '\t' || c = '\n' || c = '\r' || c = '\x0b' || c = '\x0c'

/-- Clause-boundary characters excluded by the capture class [^,.\n!?] in
the topic / target_audience regexes of services.py. -/
def notBoundary (c : Char) : Bool :=
  !(c = ',' || c = '.' || c = '\n' || c = '!' || c = '?')

/-- Case-sensitive test that `p` begins the character list `l`. -/
def leadsWith : List Char → List Char → Bool
  | _, [] => true
  | [], _ :: _ => false
  | c :: cs, p :: ps => c = p && leadsWith cs ps

/-- Case-insensitive variant: the pattern `p` is given in lower case and
the text characters are lowered before comparison. -/
def leadsWithCI : List Char → List Char → Bool
  | _, [] => true
  | [], _ :: _ => false
  | c :: cs, p :: ps => c.toLower = p && leadsWithCI cs ps

/-- Substring occurrence test on character lists (`sub` occurs in `l`). -/
def containsL (l sub : List Char) : Bool :=
  match l with
  | [] => leadsWith [] sub
  | c :: t => leadsWith (c :: t) sub || containsL t sub

/-- Python `sub in s` substring test. -/
def pyIn (sub s : String) : Bool := containsL s.data sub.data

/-- Python str.lower() for the ASCII prompts handled by the Mapper. -/
def pyLowerStr (s : String) : String := String.mk (s.data.map Char.toLower)

/-- Python str.strip(): remove leading and trailing whitespace. -/
def pyStripL (l : List Char) : List Char :=
  ((l.dropWhile isPySpace).reverse.dropWhile isPySpace).reverse

/-- Worker for str.split(): accumulate the current word (reversed) and
emit it at each whitespace run or at the end. -/
def splitWSAux : List Char → List Char → List String
  | [], acc => if acc.isEmpty then [] else [String.mk acc.reverse]
  | c :: cs, acc =>
      if isPySpace c then
        (if acc.isEmpty then [] else [String.mk acc.reverse]) ++ splitWSAux cs []
      else splitWSAux cs (c :: acc)

/-- Python str.split() with no argument: split on whitespace runs and drop
empty pieces. -/
def pySplitWS (s : String) : List String := splitWSAux s.data []

/-- Number of whitespace-separated words, Python `len(s.split())`. -/
def pyWordCount (s : String) : Nat := (pySplitWS s).length

/-- Backtracking step of the regex tail `\s+([^,.\n!?]+)`: with `k+1`
characters consumed by `\s+`, the capture group takes the maximal run of
non-boundary characters after them; if that run is empty the engine gives
one whitespace character back to the class and retries. -/
def tryBack : Nat → List Char → Option (List Char)
  | 0, _ => none
  | k + 1, t =>
      let cap := (t.drop (k + 1)).takeWhile notBoundary
      if cap.isEmpty then tryBack k t else some cap

/-- Match of the regex tail `\s+([^,.\n!?]+)` at the start of `t`,
returning the captured group: at least one whitespace character must
follow the marker word, greedily consumed, then a nonempty capture. -/
def capAfter (t : List Char) : Option (List Char) :=
  let n := (t.takeWhile isPySpace).length
  if n = 0 then none else tryBack n t

/-- re.search of `<pat>\s+([^,.\n!?]+)` with IGNORECASE: try each start
position left to right, as the Python regex engine does, and return the
captured group of the first position where the whole pattern matches. -/
def seekCapture (pat : List Char) : List Char → Option (List Char)
  | [] => none
  | c :: cs =>
      match (if leadsWithCI (c :: cs) pat then capAfter ((c :: cs).drop pat.length) else none) with
      | some cap => some cap
      | none => seekCapture pat cs

/-- Keyword-to-tool-category table of ISTVONMapper.action_keywords, in
declaration order. -/
def action_keywords : List (String × String) :=
  [("write", "text_generation"),
   ("create", "text_generation"),
   ("generate", "text_generation"),
   ("analyze", "data_analysis"),
   ("search", "web_search"),
   ("summarize", "summarization"),
   ("translate", "translation"),
   ("code", "code_generation")]

/-- Content-type-to-format table of ISTVONMapper.output_formats, in
declaration order. -/
def output_formats : List (String × String) :=
  [("blog post", "markdown"),
   ("blog", "markdown"),
   ("report", "pdf"),
   ("email", "plain_text"),
   ("presentation", "html"),
   ("document", "docx"),
   ("analysis", "pdf"),
   ("summary", "plain_text")]

/-- Tone keyword table of ISTVONMapper.tone_indicators, in declaration
order. -/
def tone_indicators : List (String × String) :=
  [("professional", "professional"),
   ("casual", "casual"),
   ("formal", "formal"),
   ("friendly", "friendly"),
   ("technical", "technical")]

/-- Politeness phrases removed by the anchored regex in
ISTVONMapper._extract_instructions, in alternation order. -/
def politeness : List String :=
  ["please", "can you", "could you", "i want you to", "i need you to"]

/-- ISTVONMapper._extract_instructions: strip one leading politeness
phrase (case-insensitive, with the trailing whitespace the regex `\s*`
consumes), capitalize the first character, and fall back to the original
prompt when the result is empty. -/
def extract_instructions (prompt : String) : String :=
  let cs := prompt.data
  let stripped :=
    match politeness.find? (fun p => leadsWithCI cs p.data) with
    | some p => (cs.drop p.length).dropWhile isPySpace
    | none => cs
  match stripped with
  | [] => prompt
  | c :: rest => String.mk (c.toUpper :: rest)

/-- ISTVONMapper._extract_source_data on the lower-cased prompt:
first-match-wins priority over the two mention groups, with a default
general-knowledge entry. -/
def sourceDataChoice (prompt : String) : List (String × JValue) :=
  if ["research", "data", "file", "document"].any (fun w => pyIn w prompt) then
    [("type", JValue.str "knowledge_base"),
     ("source", JValue.str "research_data"),
     ("description", JValue.str "Referenced research or data sources")]
  else if ["company", "organization", "internal"].any (fun w => pyIn w prompt) then
    [("type", JValue.str "knowledge_base"),
     ("source", JValue.str "company_guidelines"),
     ("description", JValue.str "Company or organizational information")]
  else
    [("type", JValue.str "none"),
     ("source", JValue.str "general_knowledge"),
     ("description", JValue.str "General knowledge base")]

/-- ISTVONMapper._extract_source_data assembled as a single-descriptor
list. -/
def extract_source_data (prompt : String) : JValue :=
  JValue.arr [JValue.obj (sourceDataChoice prompt)]

/-- Insertion into the match set of ISTVONMapper._extract_tools.  The
Python code accumulates categories in a `set`; the embedding realizes the
set as a duplicate-free list in insertion order, which (because every
keywords of each category are contiguous in the table) is also the table
declaration order the spec asks implementers to fix. -/
def addSet (acc : List String) (x : String) : List String :=
  if x ∈ acc then acc else acc ++ [x]

/-- One keyword step of _extract_tools: add the category when the keyword
occurs in the prompt. -/
def addIf (b : Bool) (x : String) (acc : List String) : List String :=
  if b then addSet acc x else acc

/-- Tool-category names produced by ISTVONMapper._extract_tools on the
lower-cased prompt, before wrapping in descriptors; defaults to
text_generation when nothing matches. -/
def extractToolNames (prompt : String) : List String :=
  let found := action_keywords.foldl (fun acc kv => addIf (pyIn kv.1 prompt) kv.2 acc) []
  if found.isEmpty then ["text_generation"] else found

/-- ISTVONMapper._extract_tools: the matched categories wrapped as
single-key descriptors. -/
def extract_tools (prompt : String) : JValue :=
  JValue.arr ((extractToolNames prompt).map (fun n => JValue.obj [("name", JValue.str n)]))

/-- Topic extraction of ISTVONMapper._extract_variables: the capture of
`about\s+([^,.\n!?]+)` (IGNORECASE) stripped, else words 1..3 (0-indexed)
of the prompt when it has more than 3 words. -/
def topicResult (prompt : String) : Option String :=
  match seekCapture "about".data prompt.data with
  | some cap => some (String.mk (pyStripL cap))
  | none =>
      let words := pySplitWS prompt
      if words.length > 3 then some (String.intercalate " " ((words.drop 1).take 3))
      else none

/-- Tone extraction: first tone_indicators keyword occurring in the
lower-cased prompt, default professional. -/
def extractTone (prompt : String) : String :=
  match tone_indicators.find? (fun kv => pyIn kv.1 (pyLowerStr prompt)) with
  | some kv => kv.2
  | none => "professional"

/-- Unit alternative of the length regex: the given base word with an
optional trailing s, greedily included. -/
def tryUnitAt (base : List Char) (l : List Char) : Option (List Char) :=
  if leadsWith l base then
    match l.drop base.length with
    | 's' :: _ => some (base ++ ['s'])
    | _ => some base
  else none

/-- Alternation `(words?|pages?|paragraphs?)` at the start of `l`, in
pattern order. -/
def matchUnit (l : List Char) : Option (List Char) :=
  match tryUnitAt "word".data l with
  | some u => some u
  | none =>
      match tryUnitAt "page".data l with
      | some u => some u
      | none => tryUnitAt "paragraph".data l

/-- Match of `(\d+)\s*(words?|pages?|paragraphs?)` at the start of `l`,
returning the stored value "<number> <unit>". -/
def tryLenAt (l : List Char) : Option String :=
  let ds := l.takeWhile Char.isDigit
  if ds.isEmpty then none
  else
    let rest := (l.drop ds.length).dropWhile isPySpace
    match matchUnit rest with
    | some u => some (String.mk ds ++ " " ++ String.mk u)
    | none => none

/-- re.search of the length pattern: first start position (left to right)
where it matches. -/
def seekLen : List Char → Option String
  | [] => none
  | c :: cs =>
      match tryLenAt (c :: cs) with
      | some r => some r
      | none => seekLen cs

/-- Length extraction of _extract_variables, run on the lower-cased
prompt. -/
def lengthResult (prompt : String) : Option String :=
  seekLen (pyLowerStr prompt).data

/-- Audience extraction: capture of `for\s+([^,.\n!?]+)` (IGNORECASE) on
the original prompt, stripped. -/
def audienceResult (prompt : String) : Option String :=
  match seekCapture "for".data prompt.data with
  | some cap => some (String.mk (pyStripL cap))
  | none => none

/-- The variables dict assembled by _extract_variables, in Python dict
insertion order: topic (if found), tone, length (if found),
target_audience (if found), priority, language. -/
def varKVs (topic : Option String) (tone : String) (len : Option String) (aud : Option String) :
    List (String × JValue) :=
  (match topic with | some t => [("topic", JValue.str t)] | none => []) ++
  [("tone", JValue.str tone)] ++
  (match len with | some l => [("length", JValue.str l)] | none => []) ++
  (match aud with | some a => [("target_audience", JValue.str a)] | none => []) ++
  [("priority", JValue.str "medium"), ("language", JValue.str "en")]

/-- ISTVONMapper._extract_variables on the original prompt. -/
def extract_variables (prompt : String) : JValue :=
  JValue.obj (varKVs (topicResult prompt) (extractTone prompt) (lengthResult prompt)
    (audienceResult prompt))

/-- Format chosen by _extract_outcome: the first matching output_formats
entry, default plain_text. -/
def outcomeFormat (prompt : String) : String :=
  match output_formats.find? (fun kv => pyIn kv.1 prompt) with
  | some kv => kv.2
  | none => "plain_text"

/-- Delivery chosen by _extract_outcome: save_to_file when a save keyword
occurs, default display. -/
def outcomeDelivery (prompt : String) : String :=
  if ["save", "export", "download", "file"].any (fun w => pyIn w prompt) then "save_to_file"
  else "display"

/-- ISTVONMapper._extract_outcome on the lower-cased prompt. -/
def extract_outcome (prompt : String) : JValue :=
  JValue.obj [("format", JValue.str (outcomeFormat prompt)),
              ("delivery", JValue.str (outcomeDelivery prompt))]

/-- Notification method chosen by _extract_notification: email keywords
checked first, then in-app keywords, default none. -/
def notifMethod (prompt : String) : String :=
  if pyIn "email" prompt || pyIn "notify" prompt then "email"
  else if pyIn "alert" prompt || pyIn "ping" prompt then "in_app"
  else "none"

/-- ISTVONMapper._extract_notification on the lower-cased prompt; trigger
is always on_completion. -/
def extract_notification (prompt : String) : JValue :=
  JValue.obj [("method", JValue.str (notifMethod prompt)),
              ("trigger", JValue.str "on_completion")]

/-- ISTVONMapper.convert_to_istvon: assemble the six ISTVON fields from a
prompt; source_data, tools, outcome and notification work on the
lower-cased prompt, instructions and variables on the original. -/
def convert_to_istvon (original_prompt : String) : JValue :=
  let prompt_lower := pyLowerStr original_prompt
  JValue.obj
    [("instructions", JValue.str (extract_instructions original_prompt)),
     ("source_data", extract_source_data prompt_lower),
     ("tools", extract_tools prompt_lower),
     ("variables", extract_variables original_prompt),
     ("outcome", extract_outcome prompt_lower),
     ("notification", extract_notification prompt_lower)]

/-- Convenience accessor: the string at `record[k1][k2]`. -/
def getStrAt (j : JValue) (k1 k2 : String) : Option String :=
  match j with
  | JValue.obj kvs =>
      match lookupKV kvs k1 with
      | some (JValue.obj kvs2) =>
          match lookupKV kvs2 k2 with
          | some (JValue.str s) => some s
          | _ => none
      | _ => none
  | _ => none

/-- The name field of a tool descriptor. -/
def toolName? (x : JValue) : Option String :=
  match x with
  | JValue.obj tkvs =>
      match lookupKV tkvs "name" with
      | some (JValue.str n) => some n
      | _ => none
  | _ => none

/-- Names of a list of tool descriptors, none when one is malformed. -/
def toolNamesList : List JValue → Option (List String)
  | [] => some []
  | x :: rest =>
      match toolName? x with
      | some n => (toolNamesList rest).map (fun ns => n :: ns)
      | none => none

/-- Convenience accessor: the list of tool names of a record. -/
def toolNamesOf (j : JValue) : Option (List String) :=
  match j with
  | JValue.obj kvs =>
      match lookupKV kvs "tools" with
      | some (JValue.arr xs) => toolNamesList xs
      | _ => none
  | _ => none

/-! Validator (prompt_processor/validators.py).  The schema resource
schemas/istvon_schema.json is not part of the available sources (only its
loader, schemas/__init__.py, is); the schema structure below is therefore
modelled from the spec.  The jsonschema constraint kinds exercised are
{type, required, enum, nested object/array}. -/

/-- Modelled from the spec: leaf constraints of the ISTVON schema — plain
string, plain boolean, string enumeration, or unconstrained object (the
shape of the parameters dict of a tool). -/
inductive LeafSchema where
  | string
  | boolean
  | strEnum (vals : List String)
  | anyObject

/-- Modelled from the spec: an object whose declared properties are
leaf-constrained, with a list of required property names.  Undeclared
keys are permitted, as jsonschema permits additional properties by
default. -/
structure RowSchema where
  props : List (String × LeafSchema)
  reqd : List String

/-- Modelled from the spec: a top-level ISTVON field is a leaf, an object
of leaves, or an array of objects of leaves. -/
inductive FieldSchema where
  | leaf (l : LeafSchema)
  | objectOf (r : RowSchema)
  | arrayOf (r : RowSchema)

/-- Check a value against a leaf constraint; none means valid, some is an
error message. -/
def checkLeaf : LeafSchema → JValue → Option String
  | LeafSchema.string, JValue.str _ => none
  | LeafSchema.string, _ => some "expected a string"
  | LeafSchema.boolean, JValue.bool _ => none
  | LeafSchema.boolean, _ => some "expected a boolean"
  | LeafSchema.strEnum vals, JValue.str s =>
      if s ∈ vals then none else some ("value not allowed by the enumeration: " ++ s)
  | LeafSchema.strEnum _, _ => some "expected an enumerated string"
  | LeafSchema.anyObject, JValue.obj _ => none
  | LeafSchema.anyObject, _ => some "expected an object"

/-- Check a value against an object-of-leaves constraint: required
properties first, then each declared property that is present; unknown
keys are ignored.  The first failing constraint is reported, as
jsonschema raises on the first failure it meets. -/
def checkRow (r : RowSchema) (v : JValue) : Option String :=
  match v with
  | JValue.obj kvs =>
      match r.reqd.find? (fun k => (lookupKV kvs k).isNone) with
      | some k => some ("missing required property: " ++ k)
      | none =>
          r.props.findSome? (fun ks =>
            match lookupKV kvs ks.1 with
            | some w => checkLeaf ks.2 w
            | none => none)
  | _ => some "expected an object"

/-- Check a value against a top-level field fragment. -/
def checkField : FieldSchema → JValue → Option String
  | FieldSchema.leaf l, v => checkLeaf l v
  | FieldSchema.objectOf r, v => checkRow r v
  | FieldSchema.arrayOf r, v =>
      match v with
      | JValue.arr xs => xs.findSome? (checkRow r)
      | _ => some "expected an array"

/-- Modelled from the spec: the source_data descriptor fragment —
`{type, source, description?, required?}` with `type` drawn from the
declared value set. -/
def sourceRow : RowSchema :=
  { props := [("type", LeafSchema.strEnum ["none", "knowledge_base"]),
              ("source", LeafSchema.string),
              ("description", LeafSchema.string),
              ("required", LeafSchema.boolean)],
    reqd := ["type", "source"] }

/-- Modelled from the spec: the tools descriptor fragment —
`{name, version?, parameters?}`. -/
def toolRow : RowSchema :=
  { props := [("name", LeafSchema.string),
              ("version", LeafSchema.string),
              ("parameters", LeafSchema.anyObject)],
    reqd := ["name"] }

/-- Modelled from the spec: the variables fragment — recognized keys with
tone and priority enumerated, unrecognized keys permitted, none
required. -/
def variablesRow : RowSchema :=
  { props := [("topic", LeafSchema.string),
              ("tone", LeafSchema.strEnum ["professional", "casual", "formal", "friendly", "technical"]),
              ("length", LeafSchema.string),
              ("target_audience", LeafSchema.string),
              ("priority", LeafSchema.strEnum ["low", "medium", "high"]),
              ("language", LeafSchema.string)],
    reqd := [] }

/-- Modelled from the spec: the outcome fragment —
`{format, delivery, filename?, destination?, ...other}`. -/
def outcomeRow : RowSchema :=
  { props := [("format", LeafSchema.strEnum ["plain_text", "markdown", "pdf", "html", "docx"]),
              ("delivery", LeafSchema.strEnum ["display", "save_to_file"]),
              ("filename", LeafSchema.string),
              ("destination", LeafSchema.string)],
    reqd := ["format", "delivery"] }

/-- Modelled from the spec: the notification fragment —
`{method, trigger, recipient?, message_template?}`. -/
def notificationRow : RowSchema :=
  { props := [("method", LeafSchema.strEnum ["none", "email", "in_app"]),
              ("trigger", LeafSchema.strEnum ["on_completion"]),
              ("recipient", LeafSchema.string),
              ("message_template", LeafSchema.string)],
    reqd := ["method", "trigger"] }

/-- Modelled from the spec: the six top-level schema properties
(schema.properties in validators.py). -/
def istvonProps : List (String × FieldSchema) :=
  [("instructions", FieldSchema.leaf LeafSchema.string),
   ("source_data", FieldSchema.arrayOf sourceRow),
   ("tools", FieldSchema.arrayOf toolRow),
   ("variables", FieldSchema.objectOf variablesRow),
   ("outcome", FieldSchema.objectOf outcomeRow),
   ("notification", FieldSchema.objectOf notificationRow)]

/-- Modelled from the spec: the six required top-level keys
(schema.required in validators.py). -/
def istvonRequired : List String :=
  ["instructions", "source_data", "tools", "variables", "outcome", "notification"]

/-- Full schema check of a record: required top-level keys, then each
present declared field against its fragment; first failure reported. -/
def checkIstvon (j : JValue) : Option String :=
  match j with
  | JValue.obj kvs =>
      match istvonRequired.find? (fun k => (lookupKV kvs k).isNone) with
      | some k => some ("missing required property: " ++ k)
      | none =>
          istvonProps.findSome? (fun ks =>
            match lookupKV kvs ks.1 with
            | some v => checkField ks.2 v
            | none => none)
  | _ => some "expected an object"

/-- ISTVONValidator.validate_istvon: (is_valid, error_message). -/
def validateIstvon (j : JValue) : Bool × Option String :=
  match checkIstvon j with
  | none => (true, none)
  | some m => (false, some ("Validation error at " ++ m))

/-- ISTVONValidator.create_minimal_istvon as a key-value record. -/
def createMinimalKV (instructions : String) : List (String × JValue) :=
  [("instructions", JValue.str instructions),
   ("source_data", JValue.arr [JValue.obj
      [("type", JValue.str "none"), ("source", JValue.str "general_knowledge")]]),
   ("tools", JValue.arr [JValue.obj [("name", JValue.str "text_generation")]]),
   ("variables", JValue.obj
      [("tone", JValue.str "professional"), ("priority", JValue.str "medium")]),
   ("outcome", JValue.obj
      [("format", JValue.str "plain_text"), ("delivery", JValue.str "display")]),
   ("notification", JValue.obj
      [("method", JValue.str "none"), ("trigger", JValue.str "on_completion")])]

/-- Lookup of a top-level property fragment among the schema properties. -/
def lookupFieldSchema : List (String × FieldSchema) → String → Option FieldSchema
  | [], _ => none
  | (k, fs) :: rest, key => if k = key then some fs else lookupFieldSchema rest key

/-- Embeds ISTVONValidator.validate_partial: when required_only, every
required top-level key absent from the record yields a missing-field
error; independently, every present key that appears in the schema
properties is validated against its fragment (one jsonschema message per
failing field), unknown keys are skipped; returns (errors empty, errors). -/
def validatePartialFields (pdata : List (String × JValue)) (required_only : Bool) :
    Bool × List String :=
  let req_errs :=
    if required_only then
      (istvonRequired.filter (fun f => (lookupKV pdata f).isNone)).map
        (fun f => "Missing required field: " ++ f)
    else []
  let field_errs :=
    pdata.filterMap (fun fv =>
      (lookupFieldSchema istvonProps fv.1).bind (fun fs =>
        (checkField fs fv.2).map (fun m => "Field " ++ fv.1 ++ ": " ++ m)))
  let errors := req_errs ++ field_errs
  (errors.isEmpty, errors)

/-- Python truthiness of an optional record value, as used by
`if not source_data:` in get_validation_suggestions (absent key defaults
to an empty, falsy value). -/
def falsyOpt : Option JValue → Bool
  | none => true
  | some (JValue.str s) => s = ""
  | some (JValue.bool b) => b = false
  | some (JValue.arr xs) => xs.isEmpty
  | some (JValue.obj kvs) => kvs.isEmpty

/-- The string value of `record.get(k, "")`; the code only meets string
values here (a non-string would make the .split() call raise in Python, outside the
modelled domain). -/
def getStrD (r : List (String × JValue)) (k : String) : String :=
  match lookupKV r k with
  | some (JValue.str s) => s
  | _ => ""

/-- The dict value of `record.get(k, {})`; the code only meets dict
values here. -/
def getObjD (r : List (String × JValue)) (k : String) : List (String × JValue) :=
  match lookupKV r k with
  | some (JValue.obj kvs) => kvs
  | _ => []

/-- Embeds ISTVONValidator.get_validation_suggestions: advisory strings
keyed by component, assembled in the dict insertion order of the code
(instructions, source_data, variables); the instructions advisories are
only produced for a non-empty instructions string. -/
def getSuggestions (r : List (String × JValue)) : List (String × List String) :=
  let instructions := getStrD r "instructions"
  let s1 : List (String × List String) :=
    if instructions ≠ "" then
      let i1 : List String :=
        if pyWordCount instructions < 5 then ["Consider making instructions more detailed"]
        else []
      let i2 : List String :=
        if !(["create", "write", "analyze", "generate"].any
              (fun w => pyIn w (pyLowerStr instructions))) then
          ["Start with a clear action verb (create, write, analyze, etc.)"]
        else []
      if i1 ++ i2 ≠ [] then [("instructions", i1 ++ i2)] else []
    else []
  let s2 : List (String × List String) :=
    if falsyOpt (lookupKV r "source_data") then
      [("source_data", ["Consider specifying data sources for better context"])]
    else []
  let vars := getObjD r "variables"
  let v1 : List String :=
    if (lookupKV vars "topic").isNone then ["Adding a topic would improve clarity"] else []
  let v2 : List String :=
    if (lookupKV vars "target_audience").isNone then
      ["Specifying target audience helps tailor content"]
    else []
  let s3 : List (String × List String) :=
    if v1 ++ v2 ≠ [] then [("variables", v1 ++ v2)] else []
  s1 ++ s2 ++ s3

/-! Builder (ISTVONBuilder in validators.py).  The Builder holds one
mutable record; build() returns `self.istvon.copy()`, a Python dict.copy,
i.e. a new top-level dict whose values are the same object references.
To capture which later mutations reach a previously returned record, the
embedding uses a small object heap: strings and booleans are immediate
values, lists and dicts are heap objects addressed by index, exactly as
CPython separates immutable scalars from mutable containers. -/

/-- A Python value: an immediate string or boolean, or a reference to a
mutable heap object. -/
inductive PVal where
  | s (v : String)
  | b (v : Bool)
  | ref (a : Nat)
deriving DecidableEq

/-- A mutable Python container: a list or a dict. -/
inductive PObj where
  | lst (xs : List PVal)
  | dct (kvs : List (String × PVal))
deriving DecidableEq

/-- The object heap: address = list index, allocation appends. -/
abbrev Heap := List PObj

/-- Read the object at an address. -/
def heapGet (h : Heap) (a : Nat) : Option PObj := List.get? h a

/-- Overwrite the object at an address (in-place mutation of a list or
dict object). -/
def heapSet (h : Heap) (a : Nat) (o : PObj) : Heap := List.set h a o

/-- Allocate a fresh object, returning the new heap and its address. -/
def alloc (h : Heap) (o : PObj) : Heap × Nat := (h ++ [o], h.length)

/-- Python dict item assignment d[k] = v: replace in place when the key
exists (keeping its insertion position), else append. -/
def dictSetKV : List (String × PVal) → String → PVal → List (String × PVal)
  | [], k, v => [(k, v)]
  | (k1, v1) :: rest, k, v =>
      if k1 = k then (k, v) :: rest else (k1, v1) :: dictSetKV rest k v

/-- Key lookup in the items of a dict object. -/
def lookupPV : List (String × PVal) → String → Option PVal
  | [], _ => none
  | (k, v) :: rest, key => if k = key then some v else lookupPV rest key

/-- Set a key of the dict object at address `a`; no effect when `a` does
not hold a dict (Python would raise there, outside the modelled domain). -/
def heapDictSet (h : Heap) (a : Nat) (k : String) (v : PVal) : Heap :=
  match heapGet h a with
  | some (PObj.dct kvs) => heapSet h a (PObj.dct (dictSetKV kvs k v))
  | _ => h

/-- Read a key of the dict object at address `a`. -/
def heapDictGet (h : Heap) (a : Nat) (k : String) : Option PVal :=
  match heapGet h a with
  | some (PObj.dct kvs) => lookupPV kvs k
  | _ => none

/-- list.append on the list object at address `a`. -/
def heapListAppend (h : Heap) (a : Nat) (v : PVal) : Heap :=
  match heapGet h a with
  | some (PObj.lst xs) => heapSet h a (PObj.lst (xs ++ [v]))
  | _ => h

/-- Resolve a Python value to the JSON value it denotes, with fuel
bounding the dereference depth (a cyclic object graph resolves to none). -/
def resolvePV : Nat → Heap → PVal → Option JValue
  | 0, _, _ => none
  | _ + 1, _, PVal.s v => some (JValue.str v)
  | _ + 1, _, PVal.b v => some (JValue.bool v)
  | fuel + 1, h, PVal.ref a =>
      match heapGet h a with
      | some (PObj.lst xs) => (xs.mapM (resolvePV fuel h)).map JValue.arr
      | some (PObj.dct kvs) =>
          (kvs.mapM (fun kv => (resolvePV fuel h kv.2).map (fun j => (kv.1, j)))).map JValue.obj
      | none => none

/-- ISTVONBuilder.__init__ / ISTVONValidator.create_minimal_istvon as a
heap construction: each Python literal allocates a fresh object; returns
the new heap and the address of the istvon dict (`self.istvon`). -/
def createMinimalAlloc (instructions : String) (h : Heap) : Heap × Nat :=
  let (h, aSrcItem) := alloc h (PObj.dct
    [("type", PVal.s "none"), ("source", PVal.s "general_knowledge")])
  let (h, aSrc) := alloc h (PObj.lst [PVal.ref aSrcItem])
  let (h, aToolItem) := alloc h (PObj.dct [("name", PVal.s "text_generation")])
  let (h, aTools) := alloc h (PObj.lst [PVal.ref aToolItem])
  let (h, aVars) := alloc h (PObj.dct
    [("tone", PVal.s "professional"), ("priority", PVal.s "medium")])
  let (h, aOut) := alloc h (PObj.dct
    [("format", PVal.s "plain_text"), ("delivery", PVal.s "display")])
  let (h, aNote) := alloc h (PObj.dct
    [("method", PVal.s "none"), ("trigger", PVal.s "on_completion")])
  alloc h (PObj.dct
    [("instructions", PVal.s instructions),
     ("source_data", PVal.ref aSrc),
     ("tools", PVal.ref aTools),
     ("variables", PVal.ref aVars),
     ("outcome", PVal.ref aOut),
     ("notification", PVal.ref aNote)])

/-- ISTVONBuilder.set_instructions: rebind the instructions key of the
istvon dict at `self`. -/
def set_instructions (h : Heap) (self : Nat) (instructions : String) : Heap :=
  heapDictSet h self "instructions" (PVal.s instructions)

/-- ISTVONBuilder.add_source_data: when the current source_data is
exactly the single default placeholder (type none), rebind it to a fresh
empty list; then allocate the new descriptor (description only when
non-empty, mirroring `if description:`) and append it in place. -/
def add_source_data (h : Heap) (self : Nat) (source_type source description : String)
    (required : Bool) : Heap :=
  let placeholder : Bool :=
    match heapDictGet h self "source_data" with
    | some (PVal.ref a) =>
        match heapGet h a with
        | some (PObj.lst [PVal.ref e]) =>
            match heapGet h e with
            | some (PObj.dct kvs) => lookupPV kvs "type" == some (PVal.s "none")
            | _ => false
        | _ => false
    | _ => false
  let h :=
    if placeholder then
      let (h2, aNew) := alloc h (PObj.lst [])
      heapDictSet h2 self "source_data" (PVal.ref aNew)
    else h
  let item :=
    [("type", PVal.s source_type), ("source", PVal.s source), ("required", PVal.b required)] ++
    (if description = "" then [] else [("description", PVal.s description)])
  let (h, aItem) := alloc h (PObj.dct item)
  match heapDictGet h self "source_data" with
  | some (PVal.ref a) => heapListAppend h a (PVal.ref aItem)
  | _ => h

/-- ISTVONBuilder.clear_tools: rebind the tools key to a fresh empty
list object. -/
def clear_tools (h : Heap) (self : Nat) : Heap :=
  let (h2, aNew) := alloc h (PObj.lst [])
  heapDictSet h2 self "tools" (PVal.ref aNew)

/-- ISTVONBuilder.add_tool: allocate the descriptor (version only when
truthy, parameters only when a non-empty dict) and append it in place to
the current tools list object. -/
def add_tool (h : Heap) (self : Nat) (tool_name : String) (version : Option String)
    (parameters : Option (List (String × PVal))) : Heap :=
  let base := [("name", PVal.s tool_name)]
  let base :=
    match version with
    | some v => if v = "" then base else base ++ [("version", PVal.s v)]
    | none => base
  let (h, withParams) :=
    match parameters with
    | some ps =>
        if ps.isEmpty then (h, base)
        else
          let (h2, aP) := alloc h (PObj.dct ps)
          (h2, base ++ [("parameters", PVal.ref aP)])
    | none => (h, base)
  let (h, aItem) := alloc h (PObj.dct withParams)
  match heapDictGet h self "tools" with
  | some (PVal.ref a) => heapListAppend h a (PVal.ref aItem)
  | _ => h

/-- ISTVONBuilder.set_variables: dict.update on the variables dict
object, an in-place merge. -/
def set_variables (h : Heap) (self : Nat) (kvs : List (String × PVal)) : Heap :=
  match heapDictGet h self "variables" with
  | some (PVal.ref a) =>
      (match heapGet h a with
       | some (PObj.dct old) =>
           heapSet h a (PObj.dct (kvs.foldl (fun acc kv => dictSetKV acc kv.1 kv.2) old))
       | _ => h)
  | _ => h

/-- ISTVONBuilder.set_outcome: rebind outcome to a freshly allocated dict
(filename / destination only when truthy, then the extra options merged
in). -/
def set_outcome (h : Heap) (self : Nat) (format_type delivery : String)
    (filename destination : Option String) (other : List (String × PVal)) : Heap :=
  let base := [("format", PVal.s format_type), ("delivery", PVal.s delivery)]
  let base :=
    match filename with
    | some f => if f = "" then base else base ++ [("filename", PVal.s f)]
    | none => base
  let base :=
    match destination with
    | some d => if d = "" then base else base ++ [("destination", PVal.s d)]
    | none => base
  let merged := other.foldl (fun acc kv => dictSetKV acc kv.1 kv.2) base
  let (h2, aNew) := alloc h (PObj.dct merged)
  heapDictSet h2 self "outcome" (PVal.ref aNew)

/-- ISTVONBuilder.set_notification: rebind notification to a freshly
allocated dict (recipient / message_template only when truthy). -/
def set_notification (h : Heap) (self : Nat) (method : String) (recipient : Option String)
    (trigger : String) (message_template : Option String) : Heap :=
  let base := [("method", PVal.s method), ("trigger", PVal.s trigger)]
  let base :=
    match recipient with
    | some r => if r = "" then base else base ++ [("recipient", PVal.s r)]
    | none => base
  let base :=
    match message_template with
    | some m => if m = "" then base else base ++ [("message_template", PVal.s m)]
    | none => base
  let (h2, aNew) := alloc h (PObj.dct base)
  heapDictSet h2 self "notification" (PVal.ref aNew)

/-- Full validation of the builder state: resolve `self.istvon` to its
JSON value and run validate_istvon; an unresolvable graph corresponds to
the catch-all branch of validate_istvon (Python would raise inside
jsonschema and the except-clause turns it into a failure value). -/
def heapValidate (h : Heap) (self : Nat) : Bool × Option String :=
  match resolvePV (h.length + 2) h (PVal.ref self) with
  | some j => validateIstvon j
  | none => (false, some "Unexpected validation error")

/-- ISTVONBuilder.build: validate, raise on failure leaving the heap
untouched, else return `self.istvon.copy()` — a NEW top-level dict whose
values are the SAME references (the shallow dict.copy of Python). -/
def buildOp (h : Heap) (self : Nat) : Except String Nat × Heap :=
  match heapValidate h self with
  | (true, _) =>
      (match heapGet h self with
       | some (PObj.dct kvs) =>
           let (h2, aCopy) := alloc h (PObj.dct kvs)
           (Except.ok aCopy, h2)
       | _ => (Except.error "Invalid ISTVON structure: unreachable", h))
  | (false, some e) => (Except.error ("Invalid ISTVON structure: " ++ e), h)
  | (false, none) => (Except.error "Invalid ISTVON structure: ", h)

/-- ISTVONBuilder.build_partial: a shallow copy plus the result of
validate_partial on the resolved state (never raises). -/
def buildPartialOp (h : Heap) (self : Nat) : (Except String Nat × Heap) × (Bool × List String) :=
  let vp :=
    match resolvePV (h.length + 2) h (PVal.ref self) with
    | some (JValue.obj kvs) => validatePartialFields kvs false
    | _ => (true, [])
  (((match heapGet h self with
     | some (PObj.dct kvs) =>
         let (h2, aCopy) := alloc h (PObj.dct kvs)
         (Except.ok aCopy, h2)
     | _ => (Except.error "unreachable", h)) : Except String Nat × Heap), vp)

/-! Shared lemmas for the claims, then the claim theorems. -/

/-- Enumerated tones of the variables fragment. -/
def toneEnum : List String := ["professional", "casual", "formal", "friendly", "technical"]

/-- Enumerated output formats of the outcome fragment. -/
def fmtEnum : List String := ["plain_text", "markdown", "pdf", "html", "docx"]

theorem source_data_valid (p : String) :
    checkRow sourceRow (JValue.obj (sourceDataChoice p)) = none := by
  unfold sourceDataChoice
  split
  · rfl
  · split <;> rfl

theorem tools_valid (names : List String) :
    List.findSome? (checkRow toolRow)
      (names.map (fun n => JValue.obj [("name", JValue.str n)])) = none := by
  induction names with
  | nil => rfl
  | cons n ns ih =>
      simp only [List.map_cons, List.findSome?] at ih ⊢
      have h : checkRow toolRow (JValue.obj [("name", JValue.str n)]) = none := rfl
      rw [h]
      exact ih

theorem extractTone_mem (p : String) : extractTone p ∈ toneEnum := by
  unfold extractTone
  rcases hf : tone_indicators.find? (fun kv => pyIn kv.1 (pyLowerStr p)) with _ | kv
  · rw [hf]; decide
  · rw [hf]
    have hmem := List.mem_of_find?_eq_some hf
    fin_cases hmem <;> decide

theorem variables_valid_aux (t? : Option String) (tone : String) (l? a? : Option String)
    (ht : tone ∈ toneEnum) :
    checkRow variablesRow (JValue.obj (varKVs t? tone l? a?)) = none := by
  simp only [toneEnum, List.mem_cons, List.not_mem_nil, or_false] at ht
  rcases t? with _ | t <;> rcases l? with _ | l <;> rcases a? with _ | a <;>
    rcases ht with h | h | h | h | h <;> subst h <;> rfl

theorem variables_valid (p : String) :
    checkRow variablesRow (JValue.obj (varKVs (topicResult p) (extractTone p) (lengthResult p)
      (audienceResult p))) = none :=
  variables_valid_aux _ _ _ _ (extractTone_mem p)

theorem outcomeFormat_mem (p : String) : outcomeFormat p ∈ fmtEnum := by
  unfold outcomeFormat
  rcases hf : output_formats.find? (fun kv => pyIn kv.1 p) with _ | kv
  · rw [hf]; decide
  · rw [hf]
    have hmem := List.mem_of_find?_eq_some hf
    fin_cases hmem <;> decide

theorem outcome_valid_aux (f d : String) (hf : f ∈ fmtEnum) (hd : d ∈ ["display", "save_to_file"]) :
    checkRow outcomeRow
      (JValue.obj [("format", JValue.str f), ("delivery", JValue.str d)]) = none := by
  simp only [fmtEnum, List.mem_cons, List.not_mem_nil, or_false] at hf hd
  rcases hf with h | h | h | h | h <;> subst h <;> rcases hd with h | h <;> subst h <;> rfl

theorem outcome_valid (p : String) :
    checkRow outcomeRow (JValue.obj [("format", JValue.str (outcomeFormat p)),
      ("delivery", JValue.str (outcomeDelivery p))]) = none := by
  refine outcome_valid_aux _ _ (outcomeFormat_mem p) ?_
  unfold outcomeDelivery
  split <;> decide

theorem notif_valid_aux (m : String) (hm : m ∈ ["none", "email", "in_app"]) :
    checkRow notificationRow
      (JValue.obj [("method", JValue.str m), ("trigger", JValue.str "on_completion")]) = none := by
  simp only [List.mem_cons, List.not_mem_nil, or_false] at hm
  rcases hm with h | h | h <;> subst h <;> rfl

theorem notif_valid (p : String) :
    checkRow notificationRow (JValue.obj [("method", JValue.str (notifMethod p)),
      ("trigger", JValue.str "on_completion")]) = none := by
  refine notif_valid_aux _ ?_
  unfold notifMethod
  split
  · decide
  · split <;> decide

/-- C2: for every prompt string P, the record produced by the Mapper
passes full validation: validate(Mapper(P)) returns (true, None). -/
theorem C2_mapper_roundtrip (p : String) :
    validateIstvon (convert_to_istvon p) = (true, none) := by
  have h2 := source_data_valid (pyLowerStr p)
  have h3 := tools_valid (extractToolNames (pyLowerStr p))
  have h4 := variables_valid p
  have h5 := outcome_valid (pyLowerStr p)
  have h6 := notif_valid (pyLowerStr p)
  unfold validateIstvon checkIstvon convert_to_istvon
  simp only [istvonRequired, istvonProps, List.find?, List.findSome?, lookupKV,
    Option.isNone_some, checkField, extract_source_data, extract_tools, extract_variables,
    extract_outcome, extract_notification, checkLeaf]
  simp [h2, h3, h4, h5, h6, List.findSome?]

/-- C1 counterexample: on the prompt of the claim, the captured topic is
not "quantum computing" — the capture class [^,.\n!?] does not stop at
"for", so the group runs to the end of the string. -/
theorem C1_counterexample :
    ¬ (getStrAt (convert_to_istvon "Write a blog post about quantum computing for beginners")
          "variables" "topic" = some "quantum computing" ∧
       getStrAt (convert_to_istvon "Write a blog post about quantum computing for beginners")
          "variables" "target_audience" = some "beginners" ∧
       getStrAt (convert_to_istvon "Write a blog post about quantum computing for beginners")
          "outcome" "format" = some "markdown") := by
  intro h
  exact absurd h.1 (by decide)

/-- C1 (amended): on the prompt of the claim the Mapper extracts
topic = "quantum computing for beginners" (the capture extends to the
next clause boundary, and there is none before the end of the string),
target_audience = "beginners", and outcome.format = "markdown". -/
theorem C1_extraction :
    getStrAt (convert_to_istvon "Write a blog post about quantum computing for beginners")
        "variables" "topic" = some "quantum computing for beginners" ∧
    getStrAt (convert_to_istvon "Write a blog post about quantum computing for beginners")
        "variables" "target_audience" = some "beginners" ∧
    getStrAt (convert_to_istvon "Write a blog post about quantum computing for beginners")
        "outcome" "format" = some "markdown" := by
  refine ⟨by decide, by decide, by decide⟩

/-- Spec-side companion definition for the tools claim, following the
words of the spec: collect the distinct matched categories in the fixed table
declaration order, defaulting to a single text_generation entry. -/
def specToolOrder (p : String) : List String :=
  let cats := ["text_generation", "data_analysis", "web_search", "summarization",
               "translation", "code_generation"]
  let matched := cats.filter
    (fun c => (action_keywords.filter (fun kv => kv.2 == c)).any (fun kv => pyIn kv.1 p))
  if matched.isEmpty then ["text_generation"] else matched

set_option maxHeartbeats 1000000 in
theorem tools_order (p : String) : extractToolNames p = specToolOrder p := by
  unfold extractToolNames specToolOrder
  simp only [action_keywords, List.foldl, List.filter_cons, List.filter_nil, List.any_cons,
    List.any_nil, beq_iff_eq, reduceCtorEq, String.reduceEq, reduceIte, ite_true, ite_false]
  generalize pyIn "write" p = b1
  generalize pyIn "create" p = b2
  generalize pyIn "generate" p = b3
  generalize pyIn "analyze" p = b4
  generalize pyIn "search" p = b5
  generalize pyIn "summarize" p = b6
  generalize pyIn "translate" p = b7
  generalize pyIn "code" p = b8
  revert b1 b2 b3 b4 b5 b6 b7 b8
  decide

set_option maxHeartbeats 1000000 in
theorem tools_nodup (p : String) : (extractToolNames p).Nodup := by
  unfold extractToolNames
  simp only [action_keywords, List.foldl]
  generalize pyIn "write" p = b1
  generalize pyIn "create" p = b2
  generalize pyIn "generate" p = b3
  generalize pyIn "analyze" p = b4
  generalize pyIn "search" p = b5
  generalize pyIn "summarize" p = b6
  generalize pyIn "translate" p = b7
  generalize pyIn "code" p = b8
  revert b1 b2 b3 b4 b5 b6 b7 b8
  decide

theorem toolNamesList_map (names : List String) :
    toolNamesList (names.map (fun n => JValue.obj [("name", JValue.str n)])) = some names := by
  induction names with
  | nil => rfl
  | cons n ns ih =>
      have h : toolName? (JValue.obj [("name", JValue.str n)]) = some n := rfl
      simp only [List.map_cons, toolNamesList, h, ih]
      rfl

theorem toolNames_convert (p : String) :
    toolNamesOf (convert_to_istvon p) = some (extractToolNames (pyLowerStr p)) :=
  toolNamesList_map (extractToolNames (pyLowerStr p))

/-- C4: the Mapper is deterministic — a pure function, so two invocations
on the same prompt coincide — and its tools list is emitted in one fixed
deterministic order, the keyword-table declaration order captured by the
spec-side definition specToolOrder, even though the Python code collects
the matches into an unordered set. -/
theorem C4_mapper_determinism (p : String) :
    convert_to_istvon p = convert_to_istvon p ∧
    toolNamesOf (convert_to_istvon p) = some (specToolOrder (pyLowerStr p)) :=
  ⟨rfl, by rw [toolNames_convert, tools_order]⟩

/-- C7: the tools list of the Mapper never contains a category twice; when no
keyword matches it is exactly the default text_generation entry; and on
"Analyze and summarize this data" the tool names are exactly
data_analysis and summarization. -/
theorem C7_tool_dedup (p : String) :
    (extractToolNames p).Nodup ∧
    (action_keywords.all (fun kv => !(pyIn kv.1 p)) = true →
      extractToolNames p = ["text_generation"]) ∧
    toolNamesOf (convert_to_istvon "Analyze and summarize this data") =
      some ["data_analysis", "summarization"] := by
  refine ⟨tools_nodup p, ?_, by decide⟩
  intro hall
  simp only [action_keywords, List.all_cons, List.all_nil, Bool.and_eq_true,
    Bool.not_eq_true', and_true] at hall
  obtain ⟨h1, h2, h3, h4, h5, h6, h7, h8⟩ := hall
  unfold extractToolNames
  simp [action_keywords, List.foldl, h1, h2, h3, h4, h5, h6, h7, h8, addIf]

/-- C7 witness: on "hi" no action keyword occurs and the tools list is
exactly the default text_generation entry. -/
theorem C7_tool_dedup_witness :
    action_keywords.all (fun kv => !(pyIn kv.1 "hi")) = true ∧
    extractToolNames "hi" = ["text_generation"] :=
  ⟨by decide, (C7_tool_dedup "hi").2.1 (by decide)⟩

/-- The fresh Builder of ISTVONBuilder.__init__ on an empty heap: the
heap after create_minimal_istvon("") and the address of self.istvon. -/
def builder0 : Heap × Nat := createMinimalAlloc "" []

/-- The address carried by a successful build() result. -/
def okAddr? : Except String Nat → Option Nat
  | Except.ok a => some a
  | Except.error _ => none

/-- The record address returned by build() on the fresh Builder. -/
def rec1 : Nat := 8

/-- The heap after build() on the fresh Builder. -/
def heap2 : Heap := (buildOp builder0.1 builder0.2).2

/-- A Builder whose notification method was set to a value outside the
schema enumeration, making the in-progress record invalid. -/
def bad6Heap : Heap := set_notification builder0.1 builder0.2 "bogus" none "on_completion" none

/-- The bad Builder corrected: the method set back to an allowed value. -/
def good6Heap : Heap := set_notification bad6Heap builder0.2 "email" none "on_completion" none

theorem checkIstvon_obj (j : JValue) (hv : checkIstvon j = none) :
    ∃ kvs, j = JValue.obj kvs := by
  cases j with
  | obj kvs => exact ⟨kvs, rfl⟩
  | str s => simp [checkIstvon] at hv
  | bool b => simp [checkIstvon] at hv
  | arr xs => simp [checkIstvon] at hv

theorem validateIstvon_fst (j : JValue) (hv : (validateIstvon j).1 = true) :
    checkIstvon j = none := by
  unfold validateIstvon at hv
  rcases hc : checkIstvon j with _ | m
  · rfl
  · rw [hc] at hv
    simp at hv

theorem build_ok_shape (h : Heap) (a : Nat) (hv : (heapValidate h a).1 = true) :
    ∃ kvs, heapGet h a = some (PObj.dct kvs) := by
  unfold heapValidate at hv
  rcases hr : resolvePV (h.length + 2) h (PVal.ref a) with _ | j
  · rw [hr] at hv
    simp at hv
  · rw [hr] at hv
    have hv2 : (validateIstvon j).1 = true := hv
    obtain ⟨kvs2, rfl⟩ := checkIstvon_obj j (validateIstvon_fst j hv2)
    have hstep : resolvePV (h.length + 1 + 1) h (PVal.ref a) = some (JValue.obj kvs2) := hr
    rw [resolvePV] at hstep
    rcases hg : heapGet h a with _ | o
    · rw [hg] at hstep
      cases hstep
    · rcases o with xs | kvs
      · rw [hg] at hstep
        have hstep2 : Option.map JValue.arr (xs.mapM (resolvePV (h.length + 1) h)) =
            some (JValue.obj kvs2) := hstep
        rcases hm : xs.mapM (resolvePV (h.length + 1) h) with _ | ys
        · rw [hm] at hstep2
          cases hstep2
        · rw [hm] at hstep2
          simp at hstep2
      · exact ⟨kvs, rfl⟩

/-- C6: build() fails exactly when the in-progress record fails full
validation, and on failure the heap — hence the in-progress record — is
left untouched; concretely, a Builder made invalid by a bad notification
method fails to build with its state intact, and after correcting the
method the same Builder builds successfully. -/
theorem C6_build_atomic :
    (∀ (h : Heap) (a : Nat),
        ((buildOp h a).1.isOk = (heapValidate h a).1) ∧
        ((heapValidate h a).1 = false → (buildOp h a).2 = h)) ∧
    ((heapValidate bad6Heap builder0.2).1 = false ∧
     (buildOp bad6Heap builder0.2).1.isOk = false ∧
     (buildOp bad6Heap builder0.2).2 = bad6Heap ∧
     (buildOp good6Heap builder0.2).1.isOk = true) := by
  constructor
  · intro h a
    rcases hv : heapValidate h a with ⟨b, e?⟩
    cases b
    · constructor
      · unfold buildOp
        rw [hv]
        rcases e? with _ | e <;> rfl
      · intro _
        unfold buildOp
        rw [hv]
        rcases e? with _ | e <;> rfl
    · obtain ⟨kvs, hg⟩ := build_ok_shape h a (by rw [hv])
      constructor
      · unfold buildOp
        rw [hv, hg]
        rfl
      · intro hfalse
        simp at hfalse
  · exact ⟨by decide, by decide, by decide, by decide⟩

/-- C6 witness: on the concrete invalid Builder the hypothesis of the
atomicity implication holds and the heap is preserved by the failing
build(). -/
theorem C6_build_atomic_witness :
    (heapValidate bad6Heap builder0.2).1 = false ∧
    (buildOp bad6Heap builder0.2).2 = bad6Heap :=
  ⟨by decide, (C6_build_atomic.1 bad6Heap builder0.2).2 (by decide)⟩

/-- C3 counterexample: build() on the fresh Builder returns record
address 8; a subsequent add_tool mutates the shared tools list in place,
so the previously returned record changes — it is not immutable to the
caller. -/
theorem C3_counterexample :
    okAddr? (buildOp builder0.1 builder0.2).1 = some rec1 ∧
    (resolvePV 12 heap2 (PVal.ref rec1)).bind toolNamesOf = some ["text_generation"] ∧
    (resolvePV 12 (add_tool heap2 builder0.2 "custom" none none) (PVal.ref rec1)).bind
        toolNamesOf = some ["text_generation", "custom"] ∧
    (resolvePV 12 (add_tool heap2 builder0.2 "custom" none none) (PVal.ref rec1)).bind
        toolNamesOf ≠ (resolvePV 12 heap2 (PVal.ref rec1)).bind toolNamesOf := by
  exact ⟨by decide, by decide, by decide, by decide⟩

/-- Addresses reachable from a value within the given dereference depth;
used to state that an operation on one heap object cannot affect the
resolution of a structure that never reaches it. -/
def reachN : Nat → Heap → PVal → List Nat
  | 0, _, _ => []
  | _ + 1, _, PVal.s _ => []
  | _ + 1, _, PVal.b _ => []
  | fuel + 1, h, PVal.ref a =>
      a :: (match heapGet h a with
        | some (PObj.lst xs) => (xs.map (reachN fuel h)).flatten
        | some (PObj.dct kvs) => (kvs.map (fun kv => reachN fuel h kv.2)).flatten
        | none => [])

/-- Reads that succeed are unchanged when the heap is extended by
allocation. -/
theorem heapGet_append (h t : Heap) (a : Nat) (o : PObj) (hg : heapGet h a = some o) :
    heapGet (h ++ t) a = some o := by
  unfold heapGet at hg ⊢
  rw [List.get?_append (List.get?_eq_some.mp hg).1]
  exact hg

/-- Reads at another address are unchanged by an in-place update. -/
theorem heapGet_set_ne (h : Heap) (a b : Nat) (o : PObj) (hne : b ≠ a) :
    heapGet (heapSet h a o) b = heapGet h b :=
  List.get?_set_ne o h (Ne.symm hne)

/-- A successful elementwise Option traversal is stable under replacing
the function by one that agrees on every successful element. -/
theorem mapM_option_stable {α β : Type} (f g : α → Option β) (xs : List α)
    (hfg : ∀ x ∈ xs, ∀ y, f x = some y → g x = some y) (ys : List β)
    (h : xs.mapM f = some ys) : xs.mapM g = some ys := by
  rw [← List.mapM'_eq_mapM] at h ⊢
  induction xs generalizing ys with
  | nil => simpa using h
  | cons x rest ih =>
      simp only [List.mapM'] at h ⊢
      rcases hx : f x with _ | y
      · rw [hx] at h; simp at h
      · rw [hx] at h
        rcases hrest : rest.mapM' f with _ | zs
        · rw [hrest] at h; simp at h
        · rw [hrest] at h
          simp at h
          rw [hfg x (by simp) y hx]
          rw [ih (fun z hz => hfg z (by simp [hz])) zs hrest]
          simpa using h

/-- Every element of a successful Option traversal itself succeeds. -/
theorem mapM_option_elem {α β : Type} (f : α → Option β) (xs : List α) (ys : List β)
    (h : xs.mapM f = some ys) : ∀ x ∈ xs, ∃ y, f x = some y := by
  rw [← List.mapM'_eq_mapM] at h
  induction xs generalizing ys with
  | nil => intro x hx; cases hx
  | cons x rest ih =>
      intro z hz
      simp only [List.mapM'] at h
      rcases hx : f x with _ | y
      · rw [hx] at h; simp at h
      · rw [hx] at h
        rcases hrest : rest.mapM' f with _ | zs
        · rw [hrest] at h; simp at h
        · rcases List.mem_cons.mp hz with hz | hz
          · subst hz
            exact ⟨y, hx⟩
          · exact ih zs hrest z hz

/-- Frame property: a successful resolution is unchanged when the heap is
extended by allocation. -/
theorem resolve_append (fuel : Nat) :
    ∀ (h t : Heap) (v : PVal) (j : JValue),
      resolvePV fuel h v = some j → resolvePV fuel (h ++ t) v = some j := by
  induction fuel with
  | zero => intro h t v j hr; simp [resolvePV] at hr
  | succ n ih =>
      intro h t v j hr
      cases v with
      | s x => exact hr
      | b x => exact hr
      | ref a =>
          rw [resolvePV] at hr ⊢
          rcases hg : heapGet h a with _ | o
          · rw [hg] at hr; cases hr
          · rw [heapGet_append h t a o hg]
            rw [hg] at hr
            cases o with
            | lst xs =>
                have hr2 : Option.map JValue.arr (xs.mapM (resolvePV n h)) = some j := hr
                show Option.map JValue.arr (xs.mapM (resolvePV n (h ++ t))) = some j
                rcases hm : xs.mapM (resolvePV n h) with _ | ys
                · rw [hm] at hr2; cases hr2
                · rw [mapM_option_stable (resolvePV n h) (resolvePV n (h ++ t)) xs
                    (fun x _ y hy => ih h t x y hy) ys hm]
                  rw [hm] at hr2
                  exact hr2
            | dct kvs =>
                have hr2 : Option.map JValue.obj (kvs.mapM (fun kv =>
                    (resolvePV n h kv.2).map (fun jv => (kv.1, jv)))) = some j := hr
                show Option.map JValue.obj (kvs.mapM (fun kv =>
                    (resolvePV n (h ++ t) kv.2).map (fun jv => (kv.1, jv)))) = some j
                rcases hm : kvs.mapM (fun kv => (resolvePV n h kv.2).map
                    (fun jv => (kv.1, jv))) with _ | ys
                · rw [hm] at hr2; cases hr2
                · have hm2 : kvs.mapM (fun kv => (resolvePV n (h ++ t) kv.2).map
                      (fun jv => (kv.1, jv))) = some ys := by
                    refine mapM_option_stable _ _ kvs (fun kv _ y hy => ?_) ys hm
                    rcases hkv : resolvePV n h kv.2 with _ | jv
                    · rw [hkv] at hy; cases hy
                    · rw [ih h t kv.2 jv hkv]
                      rw [hkv] at hy
                      exact hy
                  rw [hm2]
                  rw [hm] at hr2
                  exact hr2

/-- The reachable-address set of a successfully resolving value is
unchanged when the heap is extended. -/
theorem reach_append (fuel : Nat) :
    ∀ (h t : Heap) (v : PVal) (j : JValue),
      resolvePV fuel h v = some j → reachN fuel (h ++ t) v = reachN fuel h v := by
  induction fuel with
  | zero => intro h t v j hr; simp [resolvePV] at hr
  | succ n ih =>
      intro h t v j hr
      cases v with
      | s x => rfl
      | b x => rfl
      | ref a =>
          rw [resolvePV] at hr
          rw [reachN, reachN]
          rcases hg : heapGet h a with _ | o
          · rw [hg] at hr; cases hr
          · rw [heapGet_append h t a o hg]
            rw [hg] at hr
            cases o with
            | lst xs =>
                have hr2 : Option.map JValue.arr (xs.mapM (resolvePV n h)) = some j := hr
                show a :: (xs.map (reachN n (h ++ t))).flatten =
                    a :: (xs.map (reachN n h)).flatten
                rcases hm : xs.mapM (resolvePV n h) with _ | ys
                · rw [hm] at hr2; cases hr2
                · have he := mapM_option_elem _ xs ys hm
                  have hmap : xs.map (reachN n (h ++ t)) = xs.map (reachN n h) := by
                    refine List.map_congr_left (fun x hx => ?_)
                    obtain ⟨y, hy⟩ := he x hx
                    exact ih h t x y hy
                  rw [hmap]
            | dct kvs =>
                have hr2 : Option.map JValue.obj (kvs.mapM (fun kv =>
                    (resolvePV n h kv.2).map (fun jv => (kv.1, jv)))) = some j := hr
                show a :: (kvs.map (fun kv => reachN n (h ++ t) kv.2)).flatten =
                    a :: (kvs.map (fun kv => reachN n h kv.2)).flatten
                rcases hm : kvs.mapM (fun kv => (resolvePV n h kv.2).map
                    (fun jv => (kv.1, jv))) with _ | ys
                · rw [hm] at hr2; cases hr2
                · have he := mapM_option_elem _ kvs ys hm
                  have hmap : kvs.map (fun kv => reachN n (h ++ t) kv.2) =
                      kvs.map (fun kv => reachN n h kv.2) := by
                    refine List.map_congr_left (fun kv hkv => ?_)
                    obtain ⟨y, hy⟩ := he kv hkv
                    rcases hkv2 : resolvePV n h kv.2 with _ | jv
                    · rw [hkv2] at hy; cases hy
                    · exact ih h t kv.2 jv hkv2
                  rw [hmap]

/-- Frame property: a successful resolution is unchanged by an in-place
update at an address it never reaches. -/
theorem resolve_set (fuel : Nat) :
    ∀ (h : Heap) (b : Nat) (o : PObj) (v : PVal) (j : JValue),
      resolvePV fuel h v = some j → b ∉ reachN fuel h v →
      resolvePV fuel (heapSet h b o) v = some j := by
  induction fuel with
  | zero => intro h b o v j hr _; simp [resolvePV] at hr
  | succ n ih =>
      intro h b o v j hr hnr
      cases v with
      | s x => exact hr
      | b x => exact hr
      | ref a =>
          rw [reachN] at hnr
          simp only [List.mem_cons, not_or] at hnr
          obtain ⟨hba, hrest⟩ := hnr
          rw [resolvePV] at hr ⊢
          rcases hg : heapGet h a with _ | o2
          · rw [hg] at hr; cases hr
          · rw [heapGet_set_ne h b a o (Ne.symm hba), hg]
            rw [hg] at hr
            rw [hg] at hrest
            cases o2 with
            | lst xs =>
                have hr2 : Option.map JValue.arr (xs.mapM (resolvePV n h)) = some j := hr
                have hrest2 : b ∉ (xs.map (reachN n h)).flatten := hrest
                show Option.map JValue.arr (xs.mapM (resolvePV n (heapSet h b o))) = some j
                rcases hm : xs.mapM (resolvePV n h) with _ | ys
                · rw [hm] at hr2; cases hr2
                · have hm2 : xs.mapM (resolvePV n (heapSet h b o)) = some ys := by
                    refine mapM_option_stable _ _ xs (fun x hx y hy => ?_) ys hm
                    refine ih h b o x y hy ?_
                    intro hmem
                    exact hrest2 (List.mem_flatten.mpr
                      ⟨reachN n h x, List.mem_map_of_mem _ hx, hmem⟩)
                  rw [hm2]
                  rw [hm] at hr2
                  exact hr2
            | dct kvs =>
                have hr2 : Option.map JValue.obj (kvs.mapM (fun kv =>
                    (resolvePV n h kv.2).map (fun jv => (kv.1, jv)))) = some j := hr
                have hrest2 : b ∉ (kvs.map (fun kv => reachN n h kv.2)).flatten := hrest
                show Option.map JValue.obj (kvs.mapM (fun kv =>
                    (resolvePV n (heapSet h b o) kv.2).map (fun jv => (kv.1, jv)))) = some j
                rcases hm : kvs.mapM (fun kv => (resolvePV n h kv.2).map
                    (fun jv => (kv.1, jv))) with _ | ys
                · rw [hm] at hr2; cases hr2
                · have hm2 : kvs.mapM (fun kv => (resolvePV n (heapSet h b o) kv.2).map
                      (fun jv => (kv.1, jv))) = some ys := by
                    refine mapM_option_stable _ _ kvs (fun kv hkv y hy => ?_) ys hm
                    rcases hkv2 : resolvePV n h kv.2 with _ | jv
                    · rw [hkv2] at hy; cases hy
                    · have hres : resolvePV n (heapSet h b o) kv.2 = some jv := by
                        refine ih h b o kv.2 jv hkv2 ?_
                        intro hmem
                        exact hrest2 (List.mem_flatten.mpr
                          ⟨reachN n h kv.2, List.mem_map_of_mem _ hkv, hmem⟩)
                      rw [hres]
                      rw [hkv2] at hy
                      exact hy
                  rw [hm2]
                  rw [hm] at hr2
                  exact hr2

/-- Rebinding a key of the dict object at `self` leaves every structure
that does not reach `self` unchanged. -/
theorem resolve_dictSet (fuel : Nat) (h : Heap) (self : Nat) (k : String) (w : PVal)
    (v : PVal) (j : JValue) (hr : resolvePV fuel h v = some j)
    (hs : self ∉ reachN fuel h v) :
    resolvePV fuel (heapDictSet h self k w) v = some j := by
  unfold heapDictSet
  rcases hg : heapGet h self with _ | o
  · exact hr
  · cases o with
    | lst xs => exact hr
    | dct kvs => exact resolve_set fuel h self _ v j hr hs

/-- Allocating a fresh object and rebinding a key of the dict at `self`
to it leaves every structure that does not reach `self` unchanged. -/
theorem resolve_alloc_dictSet (fuel : Nat) (h : Heap) (self : Nat) (k : String) (w : PVal)
    (newo : PObj) (v : PVal) (j : JValue) (hr : resolvePV fuel h v = some j)
    (hs : self ∉ reachN fuel h v) :
    resolvePV fuel (heapDictSet (h ++ [newo]) self k w) v = some j :=
  resolve_dictSet fuel (h ++ [newo]) self k w v j
    (resolve_append fuel h [newo] v j hr)
    (by rw [reach_append fuel h [newo] v j hr]; exact hs)

/-- A Builder whose placeholder source entry was replaced by a real one
(the first add_source_data rebinds source_data to a fresh list). -/
def heapA : Heap := add_source_data builder0.1 builder0.2 "knowledge_base" "s1" "" false

/-- The heap after build() on that Builder; the returned record shares
the current source_data list object. -/
def heapB : Heap := (buildOp heapA builder0.2).2

/-- The record address returned by build() on heapA. -/
def recA : Nat := 10

/-- A second add_source_data after that build(): the placeholder is
already gone, so the descriptor is appended in place to the shared
source_data list. -/
def heapC : Heap := add_source_data heapB builder0.2 "knowledge_base" "s2" "" false

/-- Convenience accessor: the number of source_data entries visible
through a record. -/
def sourceCount (h : Heap) (r : Nat) : Option Nat :=
  (resolvePV 14 h (PVal.ref r)).bind (fun j =>
    match j with
    | JValue.obj kvs =>
        match lookupKV kvs "source_data" with
        | some (JValue.arr xs) => some xs.length
        | _ => none
    | _ => none)

/-- C3 (amended): build() returns a SHALLOW defensive copy.  For every
heap and every returned record that does not reach the istvon dict of
the builder, the operations that rebind a top-level key
(set_instructions, set_outcome, set_notification, clear_tools — with
unrestricted arguments) leave the resolution of the record unchanged;
but operations that mutate a nested shared object in place are visible
through the previously returned record: add_tool and set_variables
change the record built from the fresh Builder, and an add_source_data
append past the placeholder reset changes the record built after the
placeholder was replaced (its visible source_data grows from one entry
to two). -/
theorem C3_shallow_copy :
    (∀ (h : Heap) (self r : Nat) (txt : String) (fuel : Nat) (j : JValue),
        resolvePV fuel h (PVal.ref r) = some j →
        self ∉ reachN fuel h (PVal.ref r) →
        resolvePV fuel (set_instructions h self txt) (PVal.ref r) = some j) ∧
    (∀ (h : Heap) (self r : Nat) (f d : String) (fn ds : Option String)
        (other : List (String × PVal)) (fuel : Nat) (j : JValue),
        resolvePV fuel h (PVal.ref r) = some j →
        self ∉ reachN fuel h (PVal.ref r) →
        resolvePV fuel (set_outcome h self f d fn ds other) (PVal.ref r) = some j) ∧
    (∀ (h : Heap) (self r : Nat) (m trg : String) (rcp tmpl : Option String)
        (fuel : Nat) (j : JValue),
        resolvePV fuel h (PVal.ref r) = some j →
        self ∉ reachN fuel h (PVal.ref r) →
        resolvePV fuel (set_notification h self m rcp trg tmpl) (PVal.ref r) = some j) ∧
    (∀ (h : Heap) (self r : Nat) (fuel : Nat) (j : JValue),
        resolvePV fuel h (PVal.ref r) = some j →
        self ∉ reachN fuel h (PVal.ref r) →
        resolvePV fuel (clear_tools h self) (PVal.ref r) = some j) ∧
    ((resolvePV 12 (add_tool heap2 builder0.2 "custom" none none) (PVal.ref rec1)).bind
        toolNamesOf ≠ (resolvePV 12 heap2 (PVal.ref rec1)).bind toolNamesOf) ∧
    ((resolvePV 12 (set_variables heap2 builder0.2 [("topic", PVal.s "x")])
        (PVal.ref rec1)).bind (fun j => getStrAt j "variables" "topic") ≠
      (resolvePV 12 heap2 (PVal.ref rec1)).bind (fun j => getStrAt j "variables" "topic")) ∧
    (okAddr? (buildOp heapA builder0.2).1 = some recA ∧
     sourceCount heapB recA = some 1 ∧
     sourceCount heapC recA = some 2 ∧
     sourceCount heapC recA ≠ sourceCount heapB recA) := by
  refine ⟨?_, ?_, ?_, ?_, by decide, by decide, by decide, by decide, by decide, by decide⟩
  · intro h self r txt fuel j hr hs
    exact resolve_dictSet fuel h self "instructions" (PVal.s txt) (PVal.ref r) j hr hs
  · intro h self r f d fn ds other fuel j hr hs
    unfold set_outcome alloc
    exact resolve_alloc_dictSet fuel h self "outcome" (PVal.ref h.length) _ (PVal.ref r) j hr hs
  · intro h self r m trg rcp tmpl fuel j hr hs
    unfold set_notification alloc
    exact resolve_alloc_dictSet fuel h self "notification" (PVal.ref h.length) _ (PVal.ref r)
      j hr hs
  · intro h self r fuel j hr hs
    unfold clear_tools alloc
    exact resolve_alloc_dictSet fuel h self "tools" (PVal.ref h.length) _ (PVal.ref r) j hr hs

/-- C3 witness: the istvon dict of the fresh builder is not reachable
from the record build() returned, so set_instructions leaves the
resolution of the record unchanged. -/
theorem C3_shallow_copy_witness :
    builder0.2 ∉ reachN 12 heap2 (PVal.ref rec1) ∧
    resolvePV 12 (set_instructions heap2 builder0.2 "replaced") (PVal.ref rec1) =
      resolvePV 12 heap2 (PVal.ref rec1) := by
  refine ⟨by decide, ?_⟩
  obtain ⟨j, hj⟩ : ∃ j, resolvePV 12 heap2 (PVal.ref rec1) = some j := ⟨_, rfl⟩
  rw [hj]
  exact C3_shallow_copy.1 heap2 builder0.2 rec1 "replaced" 12 j hj (by decide)

/-- C8: on a fresh Builder a single add_source_data leaves source_data as
exactly the one new descriptor — the default placeholder is discarded,
not appended to — and the descriptor carries a description key only when
the description argument is non-empty. -/
theorem C8_placeholder_replacement (t s d : String) (r : Bool) :
    (resolvePV 12 (add_source_data builder0.1 builder0.2 t s d r) (PVal.ref builder0.2)).bind
      (fun j => match j with | JValue.obj kvs => lookupKV kvs "source_data" | _ => none) =
    some (JValue.arr [JValue.obj
      ([("type", JValue.str t), ("source", JValue.str s), ("required", JValue.bool r)] ++
       (if d = "" then [] else [("description", JValue.str d)]))]) := by
  by_cases hd : d = "" <;>
    simp only [add_source_data, builder0, hd, if_true, if_false, reduceIte] <;> rfl

/-- C5: validate_partial reports, under required_only, one missing-field
error per absent required key on top of the flag-independent field
errors; every present key is checked and all field errors are collected
(two independently invalid fields yield two errors); ok is true exactly
when the error list is empty.  Concretely, the minimal record without
its tools key yields exactly the one error naming tools, and the
untouched initial record of the Builder yields none. -/
theorem C5_validate_fields :
    (∀ (r : List (String × JValue)) (ro : Bool),
        (validatePartialFields r ro).1 = (validatePartialFields r ro).2.isEmpty) ∧
    (∀ r : List (String × JValue),
        (validatePartialFields r true).2 =
          (istvonRequired.filter (fun f => (lookupKV r f).isNone)).map
            (fun f => "Missing required field: " ++ f) ++ (validatePartialFields r false).2) ∧
    validatePartialFields ((createMinimalKV "").filter (fun kv => kv.1 ≠ "tools")) true =
      (false, ["Missing required field: tools"]) ∧
    validatePartialFields (createMinimalKV "") true = (true, []) ∧
    (validatePartialFields
        [("variables", JValue.obj [("tone", JValue.str "angry")]),
         ("outcome", JValue.obj [("format", JValue.str "sandwich"),
                                 ("delivery", JValue.str "display")])] false).2.length = 2 ∧
    (validatePartialFields
        [("variables", JValue.obj [("tone", JValue.str "angry")]),
         ("outcome", JValue.obj [("format", JValue.str "sandwich"),
                                 ("delivery", JValue.str "display")])] false).1 = false :=
  ⟨fun _ _ => rfl, fun _ => rfl, by decide, by decide, by decide, by decide⟩

/-- C9 counterexample: the minimal record has the empty instructions
string — fewer than 5 words — yet get_validation_suggestions emits no
instructions advisory at all, because the code guards the instructions
checks behind a non-empty (truthy) test. -/
theorem C9_counterexample :
    lookupKV (createMinimalKV "") "instructions" = some (JValue.str "") ∧
    pyWordCount "" < 5 ∧
    List.lookup "instructions" (getSuggestions (createMinimalKV "")) = none := by
  exact ⟨rfl, by decide, by decide⟩

/-- C9 (amended): for every record whose instructions value is a
NON-EMPTY string of fewer than 5 words, the suggestions mapping carries
the add-detail advisory under the instructions key; the suggestions
function is pure and separate from validation, so it cannot affect
the verdict of validate. -/
theorem C9_instruction_advisory (r : List (String × JValue)) (s : String)
    (hs : lookupKV r "instructions" = some (JValue.str s)) (hne : s ≠ "")
    (hw : pyWordCount s < 5) :
    ∃ l, List.lookup "instructions" (getSuggestions r) = some l ∧
      "Consider making instructions more detailed" ∈ l := by
  unfold getSuggestions getStrD
  rw [hs]
  simp only [if_pos hne, if_pos hw]
  cases hb : (["create", "write", "analyze", "generate"].any (fun w => pyIn w (pyLowerStr s))) <;>
    simp [hb, List.lookup]

/-- C9 witness: on a record with the two-word instructions "Do it" the
advisory is present. -/
theorem C9_instruction_advisory_witness :
    lookupKV [("instructions", JValue.str "Do it")] "instructions" =
        some (JValue.str "Do it") ∧
    "Do it" ≠ "" ∧ pyWordCount "Do it" < 5 ∧
    (∃ l, List.lookup "instructions"
        (getSuggestions [("instructions", JValue.str "Do it")]) = some l ∧
      "Consider making instructions more detailed" ∈ l) :=
  ⟨rfl, by decide, by decide,
   C9_instruction_advisory [("instructions", JValue.str "Do it")] "Do it"
     rfl (by decide) (by decide)⟩

/-- Per-entry condition of the C10 claim: a known key validates against
its fragment; an unknown key imposes nothing. -/
def knownOk (kv : String × JValue) : Bool :=
  match lookupFieldSchema istvonProps kv.1 with
  | some fs => (checkField fs kv.2).isNone
  | none => true

/-- C10: validate_partial silently skips top-level keys that are not
schema properties — with required_only false, any record whose known
keys all validate yields (true, []); unknown keys can never contribute
an error. -/
theorem C10_unknown_keys_skipped (r : List (String × JValue)) (h : r.all knownOk = true) :
    validatePartialFields r false = (true, []) := by
  have hf : r.filterMap (fun fv => (lookupFieldSchema istvonProps fv.1).bind (fun fs =>
      (checkField fs fv.2).map (fun m => "Field " ++ fv.1 ++ ": " ++ m))) = [] := by
    rw [List.filterMap_eq_nil_iff]
    intro fv hfv
    have hk := List.all_eq_true.mp h fv hfv
    unfold knownOk at hk
    rcases hl : lookupFieldSchema istvonProps fv.1 with _ | fs
    · rfl
    · rw [hl] at hk
      have hc : checkField fs fv.2 = none := Option.isNone_iff_eq_none.mp hk
      simp [hc]
  unfold validatePartialFields
  rw [hf]
  rfl

/-- C10 witness: a record made only of unknown keys validates to
(true, []). -/
theorem C10_unknown_keys_skipped_witness :
    [("mystery", JValue.str "x"), ("extra", JValue.bool true)].all knownOk = true ∧
    validatePartialFields [("mystery", JValue.str "x"), ("extra", JValue.bool true)] false =
      (true, []) :=
  ⟨by decide, C10_unknown_keys_skipped _ (by decide)⟩
